import Mathlib

/-!
Shallow embedding of the detection pipeline of the
Debian-quantum-kernal-security repository: the statistics aggregator of
src/ebpf_monitor.rs, the feature extractor and anomaly scorer of
src/ml_detector.rs, and the token issuance of src/crypto_identifiers.rs.
Rust u64 values are natural numbers with wrapping taken modulo 2^64 where
an addition can overflow; f32 score fields are rationals and the
feature/entropy computations are reals. The Detection Coordinator state
machine has no implementation under src/ and is modelled from the spec.
-/

namespace QKS

/-- Modulus of Rust u64 arithmetic (release-mode overflow wraps). -/
def u64Mod : ℕ := 2 ^ 64

/-- Rust struct `SyscallStat` of src/ebpf_monitor.rs (lines 13-19): the
userspace per-syscall statistics record. Its f32 fields are modelled as
rationals. Note the struct stores an `error_rate` field, not an error
count. -/
structure SyscallStat where
  count : ℕ
  avg_duration_ns : ℕ
  error_rate : ℚ
  suspicious_score : ℚ
deriving DecidableEq, Repr

/-- One perf-event record as consumed by the monitoring loop of
src/ebpf_monitor.rs (lines 106-110). The kernel-side `data_t` struct also
carries the syscall return value (`retval`); the userspace loop parses
only `pid`, `syscall` and `duration` and never reads `retval`. -/
structure TraceEvent where
  pid : ℕ
  syscall : ℕ
  duration : ℕ
  retval : ℤ
deriving DecidableEq, Repr

/-- Function `calculate_suspicious_score` of src/ebpf_monitor.rs (lines
137-156): starts from 0, adds 0.4 when the stored `error_rate` exceeds
0.3, adds 0.3 when `avg_duration_ns` exceeds 100_000_000 ns, adds 0.3
when `count` exceeds 1000, and caps the result at 1 with `min`. -/
def calculate_suspicious_score (stat : SyscallStat) : ℚ :=
  let score : ℚ := 0
  let score := if stat.error_rate > 3/10 then score + 4/10 else score
  let score := if stat.avg_duration_ns > 100000000 then score + 3/10 else score
  let score := if stat.count > 1000 then score + 3/10 else score
  min score 1

/-- The freshly inserted statistics record of the `or_insert` call in
src/ebpf_monitor.rs (lines 112-117): all fields zero. -/
def initStat : SyscallStat :=
  { count := 0, avg_duration_ns := 0, error_rate := 0, suspicious_score := 0 }

/-- Body of the monitoring loop of `start_monitoring` for one perf record
(src/ebpf_monitor.rs lines 112-130): increments `count`, replaces
`avg_duration_ns` by `(avg_duration_ns + duration) / 2` in u64 arithmetic,
then recomputes `suspicious_score` from the updated record. The
`error_rate` field and the event's return value are never touched. -/
def process_event (stat : SyscallStat) (ev : TraceEvent) : SyscallStat :=
  let stat := { stat with count := (stat.count + 1) % u64Mod }
  let stat := { stat with
    avg_duration_ns := (stat.avg_duration_ns + ev.duration) % u64Mod / 2 }
  { stat with suspicious_score := calculate_suspicious_score stat }

/-- The `syscall_stats` map of `EBPFMonitor` as a total function on keys: a
key that was never inserted maps to the `or_insert` literal, matching the
`stats.entry(syscall).or_insert(...)` access pattern. -/
def MonitorState : Type := ℕ → SyscallStat

/-- Initial (empty) statistics map. -/
def initMonitor : MonitorState := fun _ => initStat

/-- Effect of one perf record on the whole statistics map: only the entry
of the record's syscall id is updated. -/
def monitor_step (m : MonitorState) (ev : TraceEvent) : MonitorState :=
  fun k => if k = ev.syscall then process_event (m k) ev else m k

/-- Statistics map after the monitoring loop has consumed a list of perf
records in order. -/
def run_monitor (evs : List TraceEvent) : MonitorState :=
  evs.foldl monitor_step initMonitor

/-- Helper: on a stat whose stored `error_rate` is zero the 0.4
contribution is never taken, so the score is the sum of the duration and
count contributions alone (their sum is at most 0.6, so the cap at 1 is
inactive). -/
theorem suspicious_score_of_zero_error_rate (stat : SyscallStat)
    (h : stat.error_rate = 0) :
    calculate_suspicious_score stat =
      (if stat.avg_duration_ns > 100000000 then (3 : ℚ)/10 else 0) +
        (if stat.count > 1000 then (3 : ℚ)/10 else 0) := by
  unfold calculate_suspicious_score
  rw [h]
  split_ifs <;> norm_num at *

/-- C1: the suspicious-score heuristic is a pure function of the stat's
other fields — it equals the sum of a 0.4 error-rate contribution (taken
when the stored error rate exceeds 0.3), a 0.3 long-duration contribution
(average duration above 100_000_000 ns) and a 0.3 high-count contribution
(count above 1000), capped at 1 — and its value always lies in [0, 1]. -/
theorem suspicious_score_formula_and_range (stat : SyscallStat) :
    calculate_suspicious_score stat =
      min ((if stat.error_rate > 3/10 then (4 : ℚ)/10 else 0) +
            ((if stat.avg_duration_ns > 100000000 then (3 : ℚ)/10 else 0) +
              (if stat.count > 1000 then (3 : ℚ)/10 else 0))) 1 ∧
    0 ≤ calculate_suspicious_score stat ∧ calculate_suspicious_score stat ≤ 1 := by
  unfold calculate_suspicious_score
  refine ⟨?_, ?_, ?_⟩ <;> split_ifs <;> norm_num

/-- Helper: the loop body written as one record literal — the score is
recomputed from the already-updated count and average, while `error_rate`
and the stale `suspicious_score` are carried over into the argument of the
heuristic. -/
theorem process_event_eq (stat : SyscallStat) (ev : TraceEvent) :
    process_event stat ev =
      { count := (stat.count + 1) % u64Mod,
        avg_duration_ns := (stat.avg_duration_ns + ev.duration) % u64Mod / 2,
        error_rate := stat.error_rate,
        suspicious_score := calculate_suspicious_score
          { count := (stat.count + 1) % u64Mod,
            avg_duration_ns := (stat.avg_duration_ns + ev.duration) % u64Mod / 2,
            error_rate := stat.error_rate,
            suspicious_score := stat.suspicious_score } } := rfl

/-- Helper: processing one record preserves a zero `error_rate` and leaves
the recomputed score equal to the duration contribution plus the count
contribution of the updated stat. -/
theorem process_event_zero_error_invariant (stat : SyscallStat) (ev : TraceEvent)
    (h : stat.error_rate = 0) :
    (process_event stat ev).error_rate = 0 ∧
    (process_event stat ev).suspicious_score =
      (if (process_event stat ev).avg_duration_ns > 100000000 then (3 : ℚ)/10 else 0) +
        (if (process_event stat ev).count > 1000 then (3 : ℚ)/10 else 0) := by
  rw [process_event_eq]
  refine ⟨h, ?_⟩
  rw [suspicious_score_of_zero_error_rate _ (by simpa using h)]

/-- C8: when neither u64 addition wraps, one processed record with duration
d and prior average a sets `avg_duration_ns` to (a + d) / 2 (integer
division — the 2-tap recency-weighted average) and increments `count` by
exactly 1. -/
theorem process_event_avg_two_tap (stat : SyscallStat) (ev : TraceEvent)
    (hc : stat.count + 1 < u64Mod)
    (hd : stat.avg_duration_ns + ev.duration < u64Mod) :
    (process_event stat ev).avg_duration_ns =
      (stat.avg_duration_ns + ev.duration) / 2 ∧
    (process_event stat ev).count = stat.count + 1 := by
  unfold process_event
  simp [Nat.mod_eq_of_lt hc, Nat.mod_eq_of_lt hd]

/-- Witness for C8 at a concrete stat (count 4, average 10) and a concrete
record of duration 6. -/
theorem process_event_avg_two_tap_witness :
    (4 : ℕ) + 1 < u64Mod ∧ (10 : ℕ) + 6 < u64Mod ∧
    ((process_event ⟨4, 10, 0, 0⟩ ⟨1, 2, 6, 0⟩).avg_duration_ns = (10 + 6) / 2 ∧
      (process_event ⟨4, 10, 0, 0⟩ ⟨1, 2, 6, 0⟩).count = 4 + 1) :=
  ⟨by decide, by decide,
    process_event_avg_two_tap ⟨4, 10, 0, 0⟩ ⟨1, 2, 6, 0⟩ (by decide) (by decide)⟩

/-- C2 counterexample: the monitoring loop never reads the record's return
value, so processing a record with `return_code = -1` produces exactly the
same stat as processing the same record with `return_code = 0` — no field
of the stat is incremented exactly when the return code is negative, and
in particular the stat's only error-related field (`error_rate`) stays 0
after an erroring record. -/
theorem process_event_ignores_retval :
    process_event initStat { pid := 1, syscall := 2, duration := 3, retval := -1 } =
      process_event initStat { pid := 1, syscall := 2, duration := 3, retval := 0 } ∧
    (process_event initStat
        { pid := 1, syscall := 2, duration := 3, retval := -1 }).error_rate = 0 :=
  ⟨rfl, rfl⟩

/-- C2 (amended): on each processed record the stat's `count` is
incremented by one (wrapping modulo 2^64) and the aggregator maintains no
error count at all — the record's return code is ignored and the
`error_rate` field keeps its creation value, so after any sequence of
records for the same syscall id the count equals the number of records
(mod 2^64) and the error tally is identically 0, trivially at most
`count`. -/
theorem aggregator_count_and_no_error_tracking :
    (∀ (stat : SyscallStat) (ev : TraceEvent),
        (process_event stat ev).count = (stat.count + 1) % u64Mod ∧
        (process_event stat ev).error_rate = stat.error_rate) ∧
    (∀ evs : List TraceEvent,
        (evs.foldl process_event initStat).count = evs.length % u64Mod ∧
        (evs.foldl process_event initStat).error_rate = 0) := by
  have hstep : ∀ (stat : SyscallStat) (ev : TraceEvent),
      (process_event stat ev).count = (stat.count + 1) % u64Mod ∧
      (process_event stat ev).error_rate = stat.error_rate := by
    intro stat ev
    constructor <;> rfl
  refine ⟨hstep, ?_⟩
  have hfold : ∀ (evs : List TraceEvent) (stat : SyscallStat),
      stat.count < u64Mod →
      (evs.foldl process_event stat).count = (stat.count + evs.length) % u64Mod ∧
      (evs.foldl process_event stat).error_rate = stat.error_rate := by
    intro evs
    induction evs with
    | nil =>
      intro stat hlt
      simpa using (Nat.mod_eq_of_lt hlt).symm
    | cons ev evs ih =>
      intro stat hlt
      have h1 := hstep stat ev
      have h2 := ih (process_event stat ev) (by
        rw [h1.1]; exact Nat.mod_lt _ (by norm_num [u64Mod]))
      refine ⟨?_, ?_⟩
      · rw [List.foldl_cons, h2.1, h1.1, Nat.mod_add_mod, List.length_cons]
        congr 1
        ring
      · rw [List.foldl_cons, h2.2, h1.2]
  intro evs
  have := hfold evs initStat (by norm_num [u64Mod, initStat])
  simpa [initStat] using this

/-- C9: `error_rate` is 0 at creation and never written by the monitoring
loop, so after any sequence of processed records every entry of the
statistics map has `error_rate = 0` and its `suspicious_score` is exactly
the duration contribution plus the count contribution — the 0.4
error-rate contribution is never added. -/
theorem error_rate_never_written (evs : List TraceEvent) (k : ℕ) :
    (run_monitor evs k).error_rate = 0 ∧
    (run_monitor evs k).suspicious_score =
      (if (run_monitor evs k).avg_duration_ns > 100000000 then (3 : ℚ)/10 else 0) +
        (if (run_monitor evs k).count > 1000 then (3 : ℚ)/10 else 0) := by
  have hinv : ∀ (evs : List TraceEvent) (m : MonitorState),
      (∀ j, (m j).error_rate = 0 ∧
        (m j).suspicious_score =
          (if (m j).avg_duration_ns > 100000000 then (3 : ℚ)/10 else 0) +
            (if (m j).count > 1000 then (3 : ℚ)/10 else 0)) →
      ∀ j, ((evs.foldl monitor_step m) j).error_rate = 0 ∧
        ((evs.foldl monitor_step m) j).suspicious_score =
          (if ((evs.foldl monitor_step m) j).avg_duration_ns > 100000000
            then (3 : ℚ)/10 else 0) +
            (if ((evs.foldl monitor_step m) j).count > 1000 then (3 : ℚ)/10 else 0) := by
    intro evs
    induction evs with
    | nil => intro m hm j; exact hm j
    | cons ev evs ih =>
      intro m hm j
      rw [List.foldl_cons]
      refine ih (monitor_step m ev) ?_ j
      intro i
      by_cases hik : i = ev.syscall
      · subst hik
        have hpe := process_event_zero_error_invariant (m ev.syscall) ev (hm ev.syscall).1
        simpa [monitor_step] using hpe
      · simpa [monitor_step, hik] using hm i
  have hbase : ∀ j, (initMonitor j).error_rate = 0 ∧
      (initMonitor j).suspicious_score =
        (if (initMonitor j).avg_duration_ns > 100000000 then (3 : ℚ)/10 else 0) +
          (if (initMonitor j).count > 1000 then (3 : ℚ)/10 else 0) := by
    intro j
    constructor <;> simp [initMonitor, initStat]
  exact hinv evs initMonitor hbase k

/-- Rust struct `ProcessMetadata` of src/ml_detector.rs (lines 117-124);
the f32 resource usage is a real, byte strings are lists of byte values. -/
structure ProcessMetadata where
  privilege_level : ℕ
  children_count : ℕ
  resource_usage : ℝ
  signature : List ℕ
  syscall_pattern : List ℕ

/-- Function `calculate_entropy` of src/ml_detector.rs (lines 86-101):
builds the count table of the distinct ids of the sequence and returns the
negated sum, over the distinct ids, of p * log2 p with p the empirical
probability of the id. -/
noncomputable def calculate_entropy (sequence : List ℕ) : ℝ :=
  -(∑ i in sequence.toFinset,
      ((sequence.count i : ℝ) / (sequence.length : ℝ)) *
        Real.logb 2 ((sequence.count i : ℝ) / (sequence.length : ℝ)))

/-- Modelled from the spec: `calculate_variance` is called at
src/ml_detector.rs line 73 but defined nowhere under src/; spec section
4.3 defines the timing variance as the population variance of `timing`,
the mean of the squared deviations from the mean. -/
noncomputable def calculate_variance (timing : List ℕ) : ℝ :=
  let mean : ℝ := (timing.map (fun t => (t : ℝ))).sum / timing.length
  ((timing.map (fun t => ((t : ℝ) - mean) ^ 2)).sum) / timing.length

/-- The `avg_time` computation of `extract_features` (src/ml_detector.rs
line 71): the wrapping u64 sum of the timings cast to float, divided by
the length. -/
noncomputable def mean_timing (timing : List ℕ) : ℝ :=
  ((timing.sum % u64Mod : ℕ) : ℝ) / (timing.length : ℝ)

/-- Function `calculate_signature_similarity` of src/ml_detector.rs (lines
103-114): the HMAC-SHA256 tag computation lives in the external `ring`
crate and is abstracted as a tag function from signature bytes to tag
bytes; the similarity is the sum of the tag bytes over length * 255. -/
noncomputable def calculate_signature_similarity (hmacTag : List ℕ → List ℕ)
    (signature : List ℕ) : ℝ :=
  let tag := hmacTag signature
  (tag.sum : ℝ) / ((tag.length : ℝ) * 255)

/-- Function `extract_features` of src/ml_detector.rs (lines 58-84): pushes
the eight features in source order onto an initially empty vector. There
is no validation of the inputs and no error return. -/
noncomputable def extract_features (hmacTag : List ℕ → List ℕ)
    (syscall_sequence : List ℕ) (timing : List ℕ)
    (process_metadata : ProcessMetadata) : List ℝ :=
  let features : List ℝ := []
  let features := features ++ [(syscall_sequence.length : ℝ)]
  let features := features ++ [calculate_entropy syscall_sequence]
  let features := features ++ [mean_timing timing]
  let features := features ++ [calculate_variance timing]
  let features := features ++ [(process_metadata.privilege_level : ℝ)]
  let features := features ++ [(process_metadata.children_count : ℝ)]
  let features := features ++ [process_metadata.resource_usage]
  let features := features ++
    [calculate_signature_similarity hmacTag process_metadata.signature]
  features

/-- C3: under the preconditions (non-empty sequence, timing of the same
length) feature extraction returns exactly eight values in the fixed
order: sequence length, sequence entropy, mean timing, timing variance,
privilege level, children count, resource usage, signature similarity. -/
theorem extract_features_eight_ordered (hmacTag : List ℕ → List ℕ)
    (seq timing : List ℕ) (md : ProcessMetadata)
    (hne : seq ≠ []) (hlen : timing.length = seq.length) :
    extract_features hmacTag seq timing md =
      [(seq.length : ℝ), calculate_entropy seq, mean_timing timing,
        calculate_variance timing, (md.privilege_level : ℝ),
        (md.children_count : ℝ), md.resource_usage,
        calculate_signature_similarity hmacTag md.signature] ∧
    (extract_features hmacTag seq timing md).length = 8 :=
  ⟨rfl, rfl⟩

/-- Witness for C3 on the spec's own example inputs. -/
theorem extract_features_eight_ordered_witness :
    ([5, 5, 5, 5] : List ℕ) ≠ [] ∧
    ([100, 100, 100, 100] : List ℕ).length = ([5, 5, 5, 5] : List ℕ).length ∧
    (extract_features (fun x => x) [5, 5, 5, 5] [100, 100, 100, 100]
        { privilege_level := 1, children_count := 0, resource_usage := 1/10,
          signature := [], syscall_pattern := [] } =
      [((4 : ℕ) : ℝ), calculate_entropy [5, 5, 5, 5], mean_timing [100, 100, 100, 100],
        calculate_variance [100, 100, 100, 100], ((1 : ℕ) : ℝ), ((0 : ℕ) : ℝ),
        (1 : ℝ)/10, calculate_signature_similarity (fun x => x) []] ∧
      (extract_features (fun x => x) [5, 5, 5, 5] [100, 100, 100, 100]
        { privilege_level := 1, children_count := 0, resource_usage := 1/10,
          signature := [], syscall_pattern := [] }).length = 8) :=
  ⟨by decide, by decide,
    extract_features_eight_ordered (fun x => x) [5, 5, 5, 5] [100, 100, 100, 100]
      { privilege_level := 1, children_count := 0, resource_usage := 1/10,
        signature := [], syscall_pattern := [] } (by decide) (by decide)⟩

/-- C4 counterexample: on an empty sequence with empty timing — inputs the
claim says must be rejected with an `InvalidInput` error — the extractor
(whose return type `Vec<f32>` has no error channel anywhere in the code)
still returns a full eight-element vector. -/
theorem extract_features_no_invalid_input_rejection :
    (extract_features (fun x => x) [] []
        { privilege_level := 1, children_count := 0, resource_usage := 0,
          signature := [], syscall_pattern := [] }).length = 8 := rfl

/-- C4 (amended): `extract_features` performs no input validation and
cannot fail: for every input, including an empty sequence or a mismatched
timing vector, it returns an eight-element vector — in the Rust source the
mean and variance entries are then the NaN of 0.0/0.0 rather than an
`InvalidInput` error, which exists nowhere in the code. -/
theorem extract_features_total_no_validation (hmacTag : List ℕ → List ℕ)
    (seq timing : List ℕ) (md : ProcessMetadata) :
    (extract_features hmacTag seq timing md).length = 8 := rfl

/-- C7: the entropy computation is the Shannon entropy in bits of the
empirical distribution of syscall ids: it returns 0 on every non-empty
sequence whose elements are all identical, and log2 of the number of
distinct ids on every non-empty sequence whose distinct ids all occur
equally often (so N distinct, uniformly occurring elements give log2 N). -/
theorem calculate_entropy_constant_and_uniform :
    (∀ (a n : ℕ), 0 < n → calculate_entropy (List.replicate n a) = 0) ∧
    (∀ (l : List ℕ) (k : ℕ), l ≠ [] → (∀ a ∈ l.toFinset, l.count a = k) →
      calculate_entropy l = Real.logb 2 (l.toFinset.card)) := by
  constructor
  · intro a n hn
    unfold calculate_entropy
    rw [List.toFinset_replicate_of_ne_zero hn.ne', Finset.sum_singleton]
    have h1 : ((List.replicate n a).count a : ℝ) = (n : ℝ) := by simp
    have h2 : (((List.replicate n a).length : ℕ) : ℝ) = (n : ℝ) := by simp
    rw [h1, h2, div_self (by exact_mod_cast hn.ne'), Real.logb_one, mul_zero,
      neg_zero]
  · intro l k hne hcount
    unfold calculate_entropy
    have hnonempty : l.toFinset.Nonempty := by
      cases l with
      | nil => simp at hne
      | cons x xs => exact ⟨x, by simp⟩
    have hcard : (l.toFinset.card : ℝ) ≠ 0 := by
      exact_mod_cast Finset.card_ne_zero_of_mem hnonempty.choose_spec
    have hk : k ≠ 0 := by
      obtain ⟨a, ha⟩ := hnonempty
      have := List.count_pos_iff.mpr (List.mem_toFinset.mp ha)
      rw [hcount a ha] at this
      omega
    have hlen : l.length = l.toFinset.card * k := by
      have hsum : ∑ a in l.toFinset, l.count a = l.length := by
        have := Multiset.toFinset_sum_count_eq (l : Multiset ℕ)
        simpa using this
      rw [← hsum, Finset.sum_congr rfl hcount, Finset.sum_const, smul_eq_mul]
    have hp : ∀ i ∈ l.toFinset,
        ((l.count i : ℝ) / (l.length : ℝ)) *
            Real.logb 2 ((l.count i : ℝ) / (l.length : ℝ)) =
          (1 / (l.toFinset.card : ℝ)) *
            Real.logb 2 (1 / (l.toFinset.card : ℝ)) := by
      intro i hi
      have hfrac : ((l.count i : ℝ) / (l.length : ℝ)) = 1 / (l.toFinset.card : ℝ) := by
        rw [hcount i hi, hlen]
        push_cast
        rw [div_mul_eq_div_div_swap, div_self (by exact_mod_cast hk)]
      rw [hfrac]
    rw [Finset.sum_congr rfl hp, Finset.sum_const, nsmul_eq_mul, one_div,
      Real.logb_inv]
    linear_combination Real.logb 2 (l.toFinset.card) * mul_inv_cancel₀ hcard

/-- Witness for C7: the constant sequence [5, 5, 5, 5] has entropy 0, and
the sequence [2, 7] of two distinct, uniformly occurring ids has entropy
log2 2. -/
theorem calculate_entropy_constant_and_uniform_witness :
    (0 < 4 ∧ calculate_entropy (List.replicate 4 5) = 0) ∧
    (([2, 7] : List ℕ) ≠ [] ∧
      (∀ a ∈ ([2, 7] : List ℕ).toFinset, ([2, 7] : List ℕ).count a = 1) ∧
      calculate_entropy [2, 7] = Real.logb 2 (([2, 7] : List ℕ).toFinset.card)) :=
  ⟨⟨by norm_num, calculate_entropy_constant_and_uniform.1 5 4 (by norm_num)⟩,
    ⟨by decide, by decide,
      calculate_entropy_constant_and_uniform.2 [2, 7] 1 (by decide) (by decide)⟩⟩

/-- Status value of the external tensorflow crate (`tf::Status`),
abstracted to an error message. -/
structure TFStatus where
  msg : String
deriving DecidableEq, Repr

/-- Model of the loaded TensorFlow model and session used by
`detect_anomaly`: looking an operation up by name can fail with a status,
and running the session on the [1, n] input tensor either fails with a
status or yields the two fetched outputs (anomaly score and
reconstruction). Both behaviors live in the external tensorflow crate;
no input width of the loaded model is recorded anywhere in the Rust
struct. -/
structure TFSession where
  operation_by_name_required : String → Except TFStatus Unit
  run : ℕ → List ℝ → Except TFStatus (ℝ × List ℝ)

/-- Function `detect_anomaly` of src/ml_detector.rs (lines 35-56): builds
the input tensor of shape [1, features.len()] (which always succeeds,
since the number of values matches the shape by construction), looks up
the `input`, `anomaly_score` and `reconstruction` operations, runs the
session and returns the fetched pair; every failure propagates through
the `Result` via `?`. The function never compares the feature length
against any model width. -/
def detect_anomaly (s : TFSession) (features : List ℝ) :
    Except TFStatus (ℝ × List ℝ) := do
  let _ ← s.operation_by_name_required "input"
  let _ ← s.operation_by_name_required "anomaly_score"
  let _ ← s.operation_by_name_required "reconstruction"
  s.run features.length features

/-- Session whose operation lookups all succeed and whose run accepts an
input tensor of any width, echoing the input back as reconstruction. -/
def allOkSession : TFSession where
  operation_by_name_required := fun _ => Except.ok ()
  run := fun _ v => Except.ok (0, v)

/-- C5 counterexample: with a session whose operation lookups succeed and
whose run accepts any input width (nothing in the code records a model
input width of 8, or checks against one), a 3-element feature vector is
scored successfully — the call does not fail at all, let alone with a
`FeatureShapeMismatch` error, which exists nowhere in the code. -/
theorem detect_anomaly_accepts_wrong_length :
    detect_anomaly allOkSession [1, 2, 3] = Except.ok (0, [1, 2, 3]) := rfl

/-- C5 (amended): `detect_anomaly` performs no shape validation of its
own: whenever the three operation lookups succeed its result is exactly
the session run on the unchecked vector, whatever its length, and every
failure surfaces as a propagated status through the `Result` return —
never as a crash and never as a `FeatureShapeMismatch`, which does not
exist in the code. -/
theorem detect_anomaly_delegates_shape (s : TFSession) (features : List ℝ)
    (h1 : s.operation_by_name_required "input" = Except.ok ())
    (h2 : s.operation_by_name_required "anomaly_score" = Except.ok ())
    (h3 : s.operation_by_name_required "reconstruction" = Except.ok ()) :
    detect_anomaly s features = s.run features.length features := by
  unfold detect_anomaly
  rw [h1, h2, h3]
  rfl

/-- Witness for C5 (amended) on a concrete all-accepting session and a
3-element vector. -/
theorem detect_anomaly_delegates_shape_witness :
    allOkSession.operation_by_name_required "input" = Except.ok () ∧
    allOkSession.operation_by_name_required "anomaly_score" = Except.ok () ∧
    allOkSession.operation_by_name_required "reconstruction" = Except.ok () ∧
    detect_anomaly allOkSession [1, 2, 3] =
      allOkSession.run ([1, 2, 3] : List ℝ).length [1, 2, 3] :=
  ⟨rfl, rfl, rfl,
    detect_anomaly_delegates_shape allOkSession [1, 2, 3] rfl rfl rfl⟩

/-- Modelled from the spec: the Detection Coordinator and its per-process
state machine (spec section 4.5) have no implementation under src/; the
states are `Observing → Flagged → Escalated → Mitigated`. -/
inductive ProcState
  | Observing
  | Flagged
  | Escalated
  | Mitigated
deriving DecidableEq, Repr

/-- Modelled from the spec: the effect of one anomaly flag arriving within
the escalation window — a first flag moves `Observing` to `Flagged`, a
repeat flag within the window escalates, and a further flag while already
`Escalated` leaves the state unchanged (no double escalation); the
mitigation and cooldown transitions are driven by other events, not by
flags. -/
def flag_step : ProcState → ProcState
  | .Observing => .Flagged
  | .Flagged => .Escalated
  | .Escalated => .Escalated
  | .Mitigated => .Mitigated

/-- Number of transitions into `Escalated` along n consecutive in-window
flags starting from state s. -/
def escalation_entries : ProcState → ℕ → ℕ
  | _, 0 => 0
  | s, n + 1 =>
    (if flag_step s = ProcState.Escalated ∧ s ≠ ProcState.Escalated then 1 else 0) +
      escalation_entries (flag_step s) n

/-- Helper: a process already in `Escalated` is a fixed point of flags and
never re-enters `Escalated`. -/
theorem escalation_entries_escalated (n : ℕ) :
    escalation_entries ProcState.Escalated n = 0 := by
  induction n with
  | zero => rfl
  | succ n ih => simpa [escalation_entries, flag_step] using ih

/-- C6: three or more flags within the escalation window starting from
`Observing` drive the process to `Escalated` with exactly one transition
into `Escalated` along the whole run, and a flag received while already
`Escalated` leaves the state at `Escalated` (no re-escalation). -/
theorem three_flags_escalate_once (n : ℕ) (h : 3 ≤ n) :
    flag_step^[n] ProcState.Observing = ProcState.Escalated ∧
    escalation_entries ProcState.Observing n = 1 ∧
    flag_step ProcState.Escalated = ProcState.Escalated := by
  obtain ⟨m, rfl⟩ : ∃ m, n = m + 3 := ⟨n - 3, by omega⟩
  have hfix : ∀ j, flag_step^[j] ProcState.Escalated = ProcState.Escalated := by
    intro j
    induction j with
    | zero => rfl
    | succ j ih =>
      rw [Function.iterate_succ_apply,
        show flag_step ProcState.Escalated = ProcState.Escalated from rfl, ih]
  refine ⟨?_, ?_, rfl⟩
  · rw [Function.iterate_add_apply]
    have h3 : flag_step^[3] ProcState.Observing = ProcState.Escalated := rfl
    rw [h3, hfix]
  · show escalation_entries ProcState.Observing (m + 3) = 1
    have : escalation_entries ProcState.Observing (m + 3) =
        escalation_entries ProcState.Escalated m + 1 := by
      simp [escalation_entries, flag_step]
      ring
    rw [this, escalation_entries_escalated]

/-- Witness for C6 at exactly three flags. -/
theorem three_flags_escalate_once_witness :
    3 ≤ 3 ∧
    (flag_step^[3] ProcState.Observing = ProcState.Escalated ∧
      escalation_entries ProcState.Observing 3 = 1 ∧
      flag_step ProcState.Escalated = ProcState.Escalated) :=
  ⟨by decide, three_flags_escalate_once 3 (by decide)⟩

/-- Rust enum `Capability` of src/crypto_identifiers.rs (lines 20-26). -/
inductive Capability
  | NetworkAccess
  | FilesystemAccess (path : String)
  | Syscall (id : ℕ)
  | MemoryAllocation (maxBytes : ℕ)
deriving DecidableEq, Repr

/-- Rust struct `ProcessToken` of src/crypto_identifiers.rs (lines 10-18);
byte strings are lists of byte values. -/
structure ProcessToken where
  pid : ℕ
  parent_token : Option (List ℕ)
  signature : List ℕ
  timestamp : ℕ
  capabilities : List Capability
  nonce : List ℕ
deriving DecidableEq, Repr

/-- Little-endian byte list of a u32 (`to_ne_bytes` on the x86-64
target). -/
def u32_ne_bytes (n : ℕ) : List ℕ :=
  [n % 256, n / 256 % 256, n / 256 ^ 2 % 256, n / 256 ^ 3 % 256]

/-- Little-endian byte list of a u64 (`to_ne_bytes` on the x86-64
target). -/
def u64_ne_bytes (n : ℕ) : List ℕ :=
  [n % 256, n / 256 % 256, n / 256 ^ 2 % 256, n / 256 ^ 3 % 256,
    n / 256 ^ 4 % 256, n / 256 ^ 5 % 256, n / 256 ^ 6 % 256, n / 256 ^ 7 % 256]

/-- The Ed25519 key pair held by a `CryptoIdentifier`
(src/crypto_identifiers.rs lines 5-8), abstracted to its signing and
verifying behavior — the cipher itself lives in the external `ring`
crate. -/
structure CryptoIdentifier where
  sign : List ℕ → List ℕ
  verify : List ℕ → List ℕ → Bool

/-- Function `generate_process_token` of src/crypto_identifiers.rs (lines
37-77): the clock value, the random nonce and the serde_json encoding of
capabilities are parameters; assembles the byte string to sign in source
order — pid bytes, timestamp bytes, nonce, the parent token's signature
when present, then the serialized capabilities — signs it, and returns
the token carrying the parent's signature bytes as its `parent_token`. -/
def generate_process_token (c : CryptoIdentifier) (ser : Capability → List ℕ)
    (pid : ℕ) (parent_token : Option ProcessToken)
    (capabilities : List Capability) (timestamp : ℕ) (nonce : List ℕ) :
    ProcessToken :=
  let token_data :=
    u32_ne_bytes pid ++ u64_ne_bytes timestamp ++ nonce ++
      (match parent_token with
        | some parent => parent.signature
        | none => []) ++
      (capabilities.map ser).flatten
  { pid := pid
    parent_token := parent_token.map (fun t => t.signature)
    signature := c.sign token_data
    timestamp := timestamp
    capabilities := capabilities
    nonce := nonce }

/-- Function `verify_token` of src/crypto_identifiers.rs (lines 79-104):
reconstructs the byte string from the token's own fields in the same
order and checks the token's signature against it with the identifier's
public key; a failed check surfaces as the `ring` `Unspecified` error
through the `Result`, a passed check returns Ok(true). -/
def verify_token (c : CryptoIdentifier) (ser : Capability → List ℕ)
    (token : ProcessToken) : Except Unit Bool :=
  let token_data :=
    u32_ne_bytes token.pid ++ u64_ne_bytes token.timestamp ++ token.nonce ++
      (match token.parent_token with
        | some parent_sig => parent_sig
        | none => []) ++
      (token.capabilities.map ser).flatten
  if c.verify token_data token.signature then Except.ok true else Except.error ()

/-- C10: whenever the underlying signature scheme accepts its own
signatures, a token produced by `generate_process_token` is accepted by
`verify_token` of the same `CryptoIdentifier` for every pid, parent token
and capability list (and every timestamp and nonce): the verifier
reconstructs exactly the byte string that was signed, so verification
returns Ok(true). -/
theorem generate_verify_roundtrip (c : CryptoIdentifier)
    (ser : Capability → List ℕ)
    (hc : ∀ m, c.verify m (c.sign m) = true)
    (pid : ℕ) (parent : Option ProcessToken) (caps : List Capability)
    (ts : ℕ) (nonce : List ℕ) :
    verify_token c ser (generate_process_token c ser pid parent caps ts nonce) =
      Except.ok true := by
  cases parent <;> simp [verify_token, generate_process_token, hc]

/-- Witness for C10 with a concrete identity-signing scheme, pid 1, no
parent, one capability, timestamp 0 and an empty nonce. -/
theorem generate_verify_roundtrip_witness :
    (∀ m : List ℕ,
      (⟨fun d => d, fun d s => decide (d = s)⟩ : CryptoIdentifier).verify m
        ((⟨fun d => d, fun d s => decide (d = s)⟩ : CryptoIdentifier).sign m) =
        true) ∧
    verify_token ⟨fun d => d, fun d s => decide (d = s)⟩ (fun _ => [0])
        (generate_process_token ⟨fun d => d, fun d s => decide (d = s)⟩
          (fun _ => [0]) 1 none [Capability.NetworkAccess] 0 []) =
      Except.ok true :=
  ⟨fun m => by simp,
    generate_verify_roundtrip ⟨fun d => d, fun d s => decide (d = s)⟩
      (fun _ => [0]) (fun m => by simp) 1 none [Capability.NetworkAccess] 0 []⟩

end QKS
